import Mathlib

/-!
Shallow embedding of the configjs runtime schema-validation engine
(src/libs/shapes/*). JavaScript values are modelled by `JVal`; JS objects
are association lists in insertion order with later assignments
overwriting in place, matching JS property semantics. Machine floats are
restricted to the integer fragment actually exercised by the engine's
integer-free claims. Thrown `ConfigShapeError`s and `AggregateError`s are
modelled by the `Thrown` type and parsing returns `Except Thrown JVal`.
-/

namespace ConfigJS

/-- A JavaScript runtime value: undefined, null, booleans, numbers
(integer fragment), strings, plain objects (ordered field lists) and
arrays. -/
inductive JVal where
  | undef : JVal
  | jnull : JVal
  | jbool (b : Bool) : JVal
  | num (n : Int) : JVal
  | str (s : String) : JVal
  | obj (fields : List (String × JVal)) : JVal
  | arr (elems : List JVal) : JVal
deriving Repr

/-- Structural equality on JS values; models both `deepEqual` and, on the
primitive values that occur in the claims, strict `===`. -/
def jvalEq : JVal → JVal → Bool
  | .undef, .undef => true
  | .jnull, .jnull => true
  | .jbool a, .jbool b => a == b
  | .num a, .num b => a == b
  | .str a, .str b => a == b
  | .obj a, .obj b => jvalEqFields a b
  | .arr a, .arr b => jvalEqList a b
  | _, _ => false
where
  jvalEqFields : List (String × JVal) → List (String × JVal) → Bool
    | [], [] => true
    | (k1, v1) :: r1, (k2, v2) :: r2 => k1 == k2 && jvalEq v1 v2 && jvalEqFields r1 r2
    | _, _ => false
  jvalEqList : List JVal → List JVal → Bool
    | [], [] => true
    | v1 :: r1, v2 :: r2 => jvalEq v1 v2 && jvalEqList r1 r2
    | _, _ => false

/-- JS truthiness (`if (x)`): undefined, null, false, 0 and "" are falsy;
objects and arrays are truthy. -/
def truthy : JVal → Bool
  | .undef => false
  | .jnull => false
  | .jbool b => b
  | .num n => n != 0
  | .str s => s != ""
  | .obj _ => true
  | .arr _ => true

/-- `k in o` for a JS object modelled as an ordered field list. -/
def hasKey (o : List (String × JVal)) (k : String) : Bool :=
  o.any (fun p => p.1 == k)

/-- `o[k]`: property access, `undefined` when the key is absent. -/
def jlookup (o : List (String × JVal)) (k : String) : JVal :=
  match o.find? (fun p => p.1 == k) with
  | some p => p.2
  | none => (.undef)

/-- `o[k] = v`: JS property assignment — an existing key keeps its
position, a new key is appended. -/
def setKey (o : List (String × JVal)) (k : String) (v : JVal) : List (String × JVal) :=
  if o.any (fun p => p.1 == k) then
    o.map (fun p => if p.1 == k then (k, v) else p)
  else
    o ++ [(k, v)]

/-- `{...a, ...b}`: spread-merge of two JS objects. -/
def spreadMerge (a b : List (String × JVal)) : List (String × JVal) :=
  b.foldl (fun acc p => setKey acc p.1 p.2) a

/-- `Object.fromEntries(entries)`: later entries overwrite earlier ones. -/
def fromEntries (l : List (String × JVal)) : List (String × JVal) :=
  l.foldl (fun acc p => setKey acc p.1 p.2) []

/-- Spreading an arbitrary JS value into an object literal
(`{...base, ...v}`): only an object contributes properties. -/
def spreadJ (base : List (String × JVal)) (v : JVal) : List (String × JVal) :=
  match v with
  | .obj fs => spreadMerge base fs
  | _ => base

/-- JS `String(v)` on the values the engine coerces. -/
def jsToString : JVal → String
  | .undef => "undefined"
  | .jnull => "null"
  | .jbool b => if b then "true" else "false"
  | .num n => toString n
  | .str s => s
  | .obj _ => "[object Object]"
  | .arr _ => ""

/-- JS `Number(s)` restricted to the optionally-signed decimal-integer
fragment; `none` models `NaN`. -/
def jsStringToNumber (s : String) : Option Int :=
  if s = "" then some 0
  else if s.all Char.isDigit then some (s.toNat!)
  else if s.startsWith "-" && (s.drop 1) ≠ "" && (s.drop 1).all Char.isDigit then
    some (-(Int.ofNat (s.drop 1).toNat!))
  else none

/-- `typeof v === "undefined"`. -/
def isUndef : JVal → Bool
  | .undef => true
  | _ => false

/-- `v === null`. -/
def isNull : JVal → Bool
  | .jnull => true
  | _ => false

/-- A thrown `ConfigShapeError`: machine code, accumulated path, message,
offending value; `metaErrors` models the `meta.errors` list attached by
`UnionShape` (each entry is a candidate failure's code, message, path). -/
structure JErr where
  code : String
  path : String
  message : String
  value : JVal
  metaErrors : List (String × String × String) := []
deriving Repr

/-- What a parse can throw: a single `ConfigShapeError` or an
`AggregateError` (its `errors` list plus its own message). -/
inductive Thrown where
  | single (e : JErr) : Thrown
  | aggregate (es : List JErr) (message : String) : Thrown
deriving Repr

/-- The path computation shared by `createError`, `_applyOperations` and
`parseWithPath`: when `_prop` is configured it is appended to the ambient
path with a dot, otherwise the ambient path is used as is (source:
base-shape.ts `createError`, base-abstract.ts `_applyOperations`). -/
def propPath (prop : String) (path : String) : String :=
  if prop ≠ "_unconfigured_property" then
    (if path ≠ "" then path ++ "." ++ prop else prop)
  else path

/-- Path of an error raised by `this.createError(creator, value)` with the
`path` argument left at its default `''` (every leaf shape does this). -/
def leafPath (prop : String) : String :=
  propPath prop ""

/-- One entry of `_operations`: a transform (the function may throw,
modelled by `Option`) or a refine predicate, each with its configured
message and code (source: base-abstract.ts `_operations`). -/
inductive Op where
  | transform (fn : JVal → Option JVal) (message : String) (code : String) : Op
  | refine (fn : JVal → Bool) (message : String) (code : String) : Op

/-- Whether an operation is a transform (`op.type === 'transform'`). -/
def Op.isTransform : Op → Bool
  | .transform _ _ _ => true
  | .refine _ _ _ => false

/-- The state shared by every shape instance (source: base-abstract.ts
fields `_default`, `_pretransforms`, `_prop`, `_key`, `_important`,
`_save_default`, `_optional`, `_nullable`, `_operations`). An unset
`_default` is `JVal.undef`. -/
structure Core where
  dflt : JVal := .undef
  pretransforms : List JVal := []
  prop : String := "_unconfigured_property"
  key : String := "_unconfigured_property"
  important : Bool := false
  saveDefault : Bool := false
  optional : Bool := false
  nullable : Bool := false
  ops : List Op := []

/-- The freshly-constructed core (`super()` field initialisers). -/
def freshCore : Core := {}

/-- The loop body of base-abstract.ts `_applyOperations` (lines 142-189):
runs operations in list order; each transform's output feeds later
operations; a throwing transform or a false refinement raises an error
whose path joins the ambient path with `_prop`. Operation-level meta and
opts overrides are not exercised by the modelled builders and are elided. -/
def applyOpsList (prop : String) (path : String) : List Op → JVal → Except Thrown JVal
  | [], v => .ok v
  | .transform fn message code :: rest, v =>
    match fn v with
    | some v1 => applyOpsList prop path rest v1
    | none => .error (.single ⟨code, propPath prop path, message, v, []⟩)
  | .refine fn message code :: rest, v =>
    if fn v then applyOpsList prop path rest v
    else .error (.single ⟨code, propPath prop path, message, v, []⟩)

/-- `this._applyOperations(value, path)`. -/
def applyOperations (c : Core) (v : JVal) (path : String) : Except Thrown JVal :=
  applyOpsList c.prop path c.ops v

/-- `this._checkImportant(value)` (base-shape.ts 166-179): a nullish value
on an important shape raises `IMPORTANT_PROPERTY`. -/
def checkImportant (c : Core) (v : JVal) : Except Thrown JVal :=
  if (isUndef v || isNull v) && c.important then
    .error (.single ⟨"IMPORTANT_PROPERTY",
      c.key ++ " - (prop: \x27" ++ c.prop ++ "\x27)",
      "The property \x27" ++ c.prop ++ "\x27 is marked as required but was not provided. Please define this value before proceeding.",
      v, []⟩)
  else .ok v

/-- `refine(predicate, message, code, ...)` (base-abstract.ts 101-117):
pushes a refine operation at the end of the list and returns the receiver
(modelled as the updated core). -/
def refineFn (c : Core) (p : JVal → Bool) (message : String) (code : String) : Core :=
  { c with ops := c.ops ++ [.refine p message code] }

/-- `transform(fn, opts)` (base-abstract.ts 78-99): clones the shape,
unshifts a transform operation at the FRONT of the cloned list (so it runs
before every already-queued operation) and copies `_pretransforms`. -/
def transformFn (c : Core) (fn : JVal → Option JVal) (message : String) (code : String) : Core :=
  { c with ops := .transform fn message code :: c.ops,
           pretransforms := c.pretransforms }

/-- `default(value)` (base-abstract.ts 54-61): when no transform is queued
the value becomes `_default`; otherwise it is pushed onto
`_pretransforms` and `_default` is left alone. -/
def defaultCore (c : Core) (v : JVal) : Core :=
  if c.ops.isEmpty ∨ c.ops.all (fun op => !op.isTransform) then
    { c with dflt := v }
  else
    { c with pretransforms := c.pretransforms ++ [v] }

/-- `optional()` (base-abstract.ts 68-71): sets `_optional` on the
receiver itself and returns it — an in-place mutation, not a wrapper. -/
def optionalCore (c : Core) : Core :=
  { c with optional := true }

/-- `JSON.stringify` on the value fragment modelled here (string escaping
elided; only used by string coercion of objects, unexercised by claims). -/
def jsonStringify : JVal → String
  | .undef => "undefined"
  | .jnull => "null"
  | .jbool b => if b then "true" else "false"
  | .num n => toString n
  | .str s => "\"" ++ s ++ "\""
  | .obj fs => "\x7b" ++ String.intercalate "," (jsonFields fs) ++ "\x7d"
  | .arr es => "[" ++ String.intercalate "," (jsonList es) ++ "]"
where
  jsonFields : List (String × JVal) → List String
    | [] => []
    | (k, v) :: rest => ("\"" ++ k ++ "\":" ++ jsonStringify v) :: jsonFields rest
  jsonList : List JVal → List String
    | [] => []
    | v :: rest => jsonStringify v :: jsonList rest

/-- String coercion (string-shape.ts 201-211): nullish becomes `''`,
booleans and numbers go through `String()`, objects through
`JSON.stringify`, anything else through `String()`. -/
def coerceString : JVal → JVal
  | .undef => .str ""
  | .jnull => .str ""
  | .jbool b => .str (jsToString (.jbool b))
  | .num n => .str (jsToString (.num n))
  | .obj fs => .str (jsonStringify (.obj fs))
  | .arr es => .str (jsonStringify (.arr es))
  | .str s => .str s

/-- `StringShape.parse` (string-shape.ts 196-236): truthy-default
substitution on undefined, optional and nullable short-circuits, optional
coercion, base type check (`NOT_STRING`), the trim/lower/upper string
transformations, then the operation pipeline (with `_key` as ambient
path) and finally `_checkImportant` on the pipeline output. -/
def stringParse (c : Core) (coerce trimmed lower upper : Bool) (v : JVal) : Except Thrown JVal :=
  let v := if isUndef v && truthy c.dflt then c.dflt else v
  if isUndef v && c.optional then .ok .undef
  else if isNull v && c.nullable then .ok .jnull
  else
    let v := if coerce then coerceString v else v
    match v with
    | .str s =>
      let r := if trimmed then s.trim else s
      let r := if lower then r.toLower else r
      let r := if upper then r.toUpper else r
      applyOperations c (.str r) c.key >>= checkImportant c
    | v => .error (.single ⟨"NOT_STRING", leafPath c.prop, "Expected a string", v, []⟩)

/-- Number coercion (number-shape.ts 99-114): nullish or `''` becomes 0,
booleans become 1/0, strings go through `Number()` raising `NOT_NUMBER`
on NaN, numbers pass, any other value raises `NOT_NUMBER`. The NaN the
source briefly stores in `value` before raising is reported here as the
original string. -/
def coerceNumber (c : Core) : JVal → Except Thrown JVal
  | .undef => .ok (.num 0)
  | .jnull => .ok (.num 0)
  | .str "" => .ok (.num 0)
  | .jbool b => .ok (.num (if b then 1 else 0))
  | .str s =>
    match jsStringToNumber s with
    | some n => .ok (.num n)
    | none => .error (.single ⟨"NOT_NUMBER", leafPath c.prop, "Expected a number", .str s, []⟩)
  | .num n => .ok (.num n)
  | v => .error (.single ⟨"NOT_NUMBER", leafPath c.prop, "Expected a number", v, []⟩)

/-- `NumberShape.parse` (number-shape.ts 94-123): truthy-default
substitution on undefined, optional and nullable short-circuits, optional
coercion, base type check (`NOT_NUMBER`), then the operation pipeline
(ambient path `_key`) and finally `_checkImportant` on its output. -/
def numberParse (c : Core) (coerce : Bool) (v : JVal) : Except Thrown JVal :=
  let v := if isUndef v && truthy c.dflt then c.dflt else v
  if isUndef v && c.optional then .ok .undef
  else if isNull v && c.nullable then .ok .jnull
  else
    (if coerce then coerceNumber c v else .ok v).bind fun v =>
      match v with
      | .num n => applyOperations c (.num n) c.key >>= checkImportant c
      | v => .error (.single ⟨"NOT_NUMBER", leafPath c.prop, "Expected a number", v, []⟩)

/-- `BooleanShape.parse` (boolean shape, part_004 46-70): truthy-default
substitution, optional and nullable short-circuits; with coercion enabled
the coerced boolean is returned DIRECTLY (skipping pipeline and important
check); otherwise base type check, pipeline, then important check. -/
def booleanParse (c : Core) (coerce strictStrings : Bool) (v : JVal) : Except Thrown JVal :=
  let v := if isUndef v && truthy c.dflt then c.dflt else v
  if isUndef v && c.optional then .ok .undef
  else if isNull v && c.nullable then .ok .jnull
  else if coerce then
    match v with
    | .str s =>
      if strictStrings then
        if s = "true" || s = "1" then .ok (.jbool true)
        else if s = "false" || s = "0" then .ok (.jbool false)
        else .error (.single ⟨"INVALID_BOOLEAN_STRING", leafPath c.prop,
          "String must be \"true\", \"false\", \"1\", or \"0\"", .str s, []⟩)
      else if s = "true" || s = "1" then .ok (.jbool true)
      else if s = "false" || s = "0" then .ok (.jbool false)
      else .ok (.jbool (s.length > 0))
    | .num n => .ok (.jbool (n != 0))
    | .undef => .ok (.jbool false)
    | .jnull => .ok (.jbool false)
    | v => .ok (.jbool (truthy v))
  else
    match v with
    | .jbool b => applyOperations c (.jbool b) c.key >>= checkImportant c
    | v => .error (.single ⟨"NOT_BOOLEAN", leafPath c.prop, "Expected a boolean", v, []⟩)

/-- `EnumShape.parse` (enum-shape.ts 36-46): undefined passes through only
when the shape is optional AND a default is configured; null only when
nullable AND a default is configured; no default substitution ever
happens; then set membership (`INVALID_ENUM_VALUE`), pipeline, important
check. -/
def enumParse (c : Core) (values : List JVal) (v : JVal) : Except Thrown JVal :=
  if isUndef v && c.optional && !(isUndef c.dflt) then .ok .undef
  else if isNull v && c.nullable && !(isUndef c.dflt) then .ok .jnull
  else if !(values.any (fun x => jvalEq x v)) then
    .error (.single ⟨"INVALID_ENUM_VALUE", leafPath c.prop,
      "Value must be one of: " ++ String.intercalate ", " (values.map jsToString), v, []⟩)
  else applyOperations c v c.key >>= checkImportant c

/-- A schema shape. Mirrors the class hierarchy: `StringShape`,
`NumberShape`, `BooleanShape`, `EnumShape`, `UnionShape`, `ArrayShape`
and `ObjectShape` (with its `_minProperties`, `_maxProperties` and
`_partial` fields); `lit` models a raw non-shape value stored in an
ObjectShape field map (the literal escape hatch). RecordShape is outside
the claims and not modelled. -/
inductive Shape where
  | string (core : Core) (coerce trimmed lower upper : Bool) : Shape
  | number (core : Core) (coerce : Bool) : Shape
  | boolean (core : Core) (coerce strictStrings : Bool) : Shape
  | enumS (core : Core) (values : List JVal) : Shape
  | union (core : Core) (members : List Shape) : Shape
  | array (core : Core) (elem : Shape) : Shape
  | obj (core : Core) (minProps maxProps : Option Nat) (pmode : Bool)
        (fields : List (String × Shape)) : Shape
  | lit (v : JVal) : Shape

/-- The inherited base-abstract state of a shape; a `lit` entry is not a
`BaseShape` instance and has no such state (never consulted). -/
def coreOf : Shape → Core
  | .string c _ _ _ _ => c
  | .number c _ => c
  | .boolean c _ _ => c
  | .enumS c _ => c
  | .union c _ => c
  | .array c _ => c
  | .obj c _ _ _ _ => c
  | .lit _ => freshCore

/-- `shape instanceof ObjectShape`. -/
def isObjShape : Shape → Bool
  | .obj _ _ _ _ _ => true
  | _ => false

/-- `Object.keys(v).length === 0`: primitives have no own keys; the JS
TypeError on null/undefined is elided (unreachable in the modelled
flows). -/
def objKeysEmpty : JVal → Bool
  | .obj fs => fs.isEmpty
  | _ => true

/-- `{..., path: currentPath, ...opts}` in ObjectShape field errors: an
opts object carrying a `path` (every nested parse call does) overrides
the field path computed just before the spread. -/
def errPath (opts : Option String) (currentPath : String) : String :=
  match opts with
  | some p => p
  | none => currentPath

/-- `ObjectShape.getDefaults()` entries (object-shape.ts 43-56): nested
ObjectShape fields recurse, shape fields contribute `_default` (possibly
undefined), literal fields contribute themselves. -/
def getDefaultsF : List (String × Shape) → List (String × JVal)
  | [] => []
  | (k, .obj _ _ _ _ fs) :: rest => (k, .obj (fromEntries (getDefaultsF fs))) :: getDefaultsF rest
  | (k, .lit v) :: rest => (k, v) :: getDefaultsF rest
  | (k, s) :: rest => (k, (coreOf s).dflt) :: getDefaultsF rest

/-- `ObjectShape.getDefaults()`: `Object.fromEntries(entries)`. -/
def getDefaultsObj (fields : List (String × Shape)) : List (String × JVal) :=
  fromEntries (getDefaultsF fields)

/-- The outcome of one iteration of the `ObjectShape.parse` field loop:
`continue` without output, push an `entries` element, or collect an
error. -/
inductive FieldOut where
  | skip : FieldOut
  | entry (k : String) (v : JVal) : FieldOut
  | fail (e : JErr) : FieldOut

mutual

/-- `shape.parse(value, opts)` for every modelled shape. Leaf shapes
delegate to their standalone parse functions; `opts` carries the
`opts.path` an enclosing ObjectShape passes down (`none` = no opts). A
`lit` entry has no parse method and is handled by its container
(unreachable here). -/
def parseS : Shape → JVal → Option String → Except Thrown JVal
  | .string c co t l u, v, _ => stringParse c co t l u v
  | .number c co, v, _ => numberParse c co v
  | .boolean c co ss, v, _ => booleanParse c co ss v
  | .enumS c vals, v, _ => enumParse c vals v
  | .lit _, _, _ => .ok .undef
  | .union c members, v, _ => unionGo c.prop members v []
  | .array c elem, .undef, _ =>
    -- truthy-default substitution on an undefined input, then the
    -- optional short-circuit and the base type dispatch on the
    -- substituted value (part_009 126-133)
    if truthy c.dflt then
      (match c.dflt with
       | .arr items =>
         (arrGo elem c.prop 0 items).bind fun rs =>
           applyOperations c (.arr rs) c.key >>= checkImportant c
       | v => .error (.single ⟨"NOT_ARRAY", leafPath c.prop, "Expected an array", v, []⟩))
    else if c.optional then .ok .undef
    else .error (.single ⟨"NOT_ARRAY", leafPath c.prop, "Expected an array", .undef, []⟩)
  | .array c _ , .jnull, _ =>
    if c.nullable then .ok .jnull
    else .error (.single ⟨"NOT_ARRAY", leafPath c.prop, "Expected an array", .jnull, []⟩)
  | .array c elem, .arr items, _ =>
    (arrGo elem c.prop 0 items).bind fun rs =>
      applyOperations c (.arr rs) c.key >>= checkImportant c
  | .array c _, v, _ =>
    .error (.single ⟨"NOT_ARRAY", leafPath c.prop, "Expected an array", v, []⟩)
  | .obj c _ _ _ fields, .undef, opts =>
    -- object-shape.ts 62-71: an undefined input takes the merged
    -- defaults when a default is configured, passes through when
    -- optional, and otherwise falls to the plain-object check and
    -- raises NOT_OBJECT
    if !(isUndef c.dflt) then .ok (.obj (spreadJ (getDefaultsObj fields) c.dflt))
    else if c.optional then .ok .undef
    else .error (.single ⟨"NOT_OBJECT", opts.getD "", "Expected object", .undef, []⟩)
  | .obj c _ _ _ fields, .jnull, opts =>
    -- object-shape.ts 73-91
    if c.nullable then .ok .jnull
    else if !(isUndef c.dflt) then .ok (.obj (spreadJ (getDefaultsObj fields) c.dflt))
    else .error (.single ⟨"NOT_OBJECT", opts.getD "", "Expected object", .jnull, []⟩)
  | .obj c minP maxP pm fields, .obj input, opts =>
    -- object-shape.ts 105-254 on a plain-object input
    let path := opts.getD ""
    let merged := spreadMerge (spreadJ (getDefaultsObj fields) c.dflt) input
    -- object-shape.ts 113-117: the per-call WeakMap cycle cache is
    -- keyed by the freshly spread `merged` object; a fresh allocation
    -- can never already be a key, so `cached.has(merged)` is provably
    -- unreachable (see the heap-level model `parseHp` below); the
    -- set/delete bookkeeping is a no-op on the result and is elided.
    let er := objFields pm input merged opts path fields [] []
    let result := fromEntries er.1
    let keys := result.map Prod.fst
    let afterBounds : Except Thrown JVal :=
      match er.2 with
      | [] => applyOperations c (.obj result) path >>= checkImportant c
      | [e] => .error (.single e)
      | es => .error (.aggregate es "Multiple validation errors")
    let afterMin : Except Thrown JVal :=
      match maxP with
      | some m =>
        if keys.length > m then
          .error (.single ⟨"TOO_MANY_PROPERTIES", path,
            "Object must have at most " ++ toString m ++ " properties", .obj input, []⟩)
        else afterBounds
      | none => afterBounds
    (match minP with
    | some m =>
      if keys.length < m then
        .error (.single ⟨"TOO_FEW_PROPERTIES", path,
          "Object must have at least " ++ toString m ++ " properties", .obj input, []⟩)
      else afterMin
    | none => afterMin)
  | .obj _ _ _ _ _, v, opts =>
    -- non-plain-object inputs (arrays, primitives) fail isPlainObject
    .error (.single ⟨"NOT_OBJECT", opts.getD "", "Expected object", v, []⟩)
termination_by s v o => (sizeOf s, 0, 0)

/-- `parseWithDefault(value)` (base-shape.ts 159-164): an undefined input
with a configured `_default` short-circuits to the operation pipeline
applied to the default with an empty ambient path; otherwise `parse`. -/
def parseWithDefault : Shape → JVal → Except Thrown JVal
  | s, v =>
    let c := coreOf s
    if isUndef v && !(isUndef c.dflt) then applyOperations c c.dflt ""
    else parseS s v none
termination_by s v => (sizeOf s, 1, 0)

/-- `parseWithPath(value, path)` (base-shape.ts 181-203): parses with
default handling, runs `_checkImportant` on the result (return value
discarded), then applies the operation pipeline A SECOND TIME with the
ambient path. A thrown `ConfigShapeError` is rethrown unchanged; anything
else (e.g. an `AggregateError`) is wrapped into `PARSE_ERROR`. -/
def parseWithPath : Shape → JVal → String → Except Thrown JVal
  | s, v, path =>
    let c := coreOf s
    match (parseWithDefault s v).bind (fun parsed =>
      (checkImportant c parsed).bind (fun _ => applyOperations c parsed path)) with
    | .error (.aggregate _ m) => .error (.single ⟨"PARSE_ERROR", propPath c.prop path, m, v, []⟩)
    | r => r
termination_by s v path => (sizeOf s, 2, 0)

/-- The candidate loop of `UnionShape.parse` (part_007 14-48): each
candidate is tried via `parseWithPath(value, this._prop)` in declaration
order; the first success is returned; failures are collected (a
non-ConfigShapeError would be recorded as `UNKNOWN_ERROR`) and, when all
candidates fail, one `NO_MATCHING_UNION_MEMBER` error carries every
candidate failure (code, message, path) in its metadata. The union core
is consulted only for `_prop`, passed here as `uprop`. -/
def unionGo : String → List Shape → JVal → List JErr → Except Thrown JVal
  | uprop, [], v, acc =>
    .error (.single ⟨"NO_MATCHING_UNION_MEMBER", leafPath uprop,
      "Value did not match any union member", v,
      acc.map (fun e => (e.code, e.message, e.path))⟩)
  | uprop, m :: rest, v, acc =>
    match parseWithPath m v uprop with
    | .ok r => .ok r
    | .error (.single e) => unionGo uprop rest v (acc ++ [e])
    | .error (.aggregate _ msg) =>
      unionGo uprop rest v (acc ++ [⟨"UNKNOWN_ERROR", uprop, "AggregateError: " ++ msg, v, []⟩])
termination_by uprop members v acc => (sizeOf members, 3, 0)

/-- The element loop of `ArrayShape.parse` (part_009 126-160): each
element is parsed through `parseWithPath` with path `prop[index]` (a
ConfigShapeError from the element is rethrown as is, aborting the map); a
literal element shape is compared by strict equality (modelled
structurally) raising `INVALID_LITERAL`. -/
def arrGo : Shape → String → Nat → List JVal → Except Thrown (List JVal)
  | _, _, _, [] => .ok []
  | elem, aprop, idx, item :: rest =>
    (match elem with
     | .lit L =>
       if jvalEq item L then (.ok item : Except Thrown JVal)
       else .error (.single ⟨"INVALID_LITERAL", aprop ++ "[" ++ toString idx ++ "]",
         "Expected " ++ jsonStringify L, item, []⟩)
     | s => parseWithPath s item (aprop ++ "[" ++ toString idx ++ "]")).bind fun r =>
      (arrGo elem aprop (idx + 1) rest).bind fun rs => .ok (r :: rs)
termination_by elem aprop idx items => (sizeOf elem, 3, sizeOf items)

/-- The outcome of one iteration of the field loop of
`ObjectShape.parse`: skip the field (`continue`), push an entry, or
collect an error. -/
def objFields : Bool → List (String × JVal) → List (String × JVal) → Option String → String →
    List (String × Shape) → List (String × JVal) → List JErr →
    List (String × JVal) × List JErr
  | _, _, _, _, _, [], entries, errors => (entries, errors)
  | pm, input, merged, opts, path, (k, fs) :: rest, entries, errors =>
    match objFieldStep pm input merged opts path k fs with
    | .skip => objFields pm input merged opts path rest entries errors
    | .entry k2 v2 => objFields pm input merged opts path rest (entries ++ [(k2, v2)]) errors
    | .fail e => objFields pm input merged opts path rest entries (errors ++ [e])
termination_by pm input merged opts path fields entries errors => (sizeOf fields, 3, 0)

/-- One iteration of the field loop of `ObjectShape.parse`
(object-shape.ts 119-215). Per field: partial-mode skip when the key is
missing from `merged` (line 122); nested-object fields absent from the
raw input are skipped (line 126); an undefined effective value takes the
field default, is skipped when the field is optional or the object
partial, or records `MISSING_PROPERTY`; an explicit null is accepted only
on nullable fields else `NOT_NULLABLE`; otherwise the field shape parses
the value with the extended path; a nested AggregateError (not a
ConfigShapeError) records `INVALID_PROPERTY`; literal fields compare by
`deepEqual` else `INVALID_LITERAL`. Field error constructors spread
`...opts` last, so an ambient opts path overrides the field path. -/
def objFieldStep : Bool → List (String × JVal) → List (String × JVal) → Option String → String →
    String → Shape → FieldOut
  | pm, _, merged, opts, path, k, .lit L =>
    let currentPath := if path ≠ "" then path ++ "." ++ k else k
    if pm && !(hasKey merged k) then .skip
    else
      let inputVal := jlookup merged k
      if !(jvalEq inputVal L) then
        .fail ⟨"INVALID_LITERAL", errPath opts currentPath,
          "Expected literal value: " ++ jsonStringify L, inputVal, []⟩
      else .entry k inputVal
  | pm, input, merged, opts, path, k, s =>
    let currentPath := if path ≠ "" then path ++ "." ++ k else k
    if pm && !(hasKey merged k) then .skip
    else if isObjShape s && !(hasKey input k) then .skip
    else
      let inputVal := jlookup merged k
      if isUndef inputVal && isUndef (coreOf s).dflt && ((coreOf s).optional || pm) then .skip
      else if isUndef inputVal && isUndef (coreOf s).dflt then
        .fail ⟨"MISSING_PROPERTY", errPath opts currentPath,
          "Missing required property \"" ++ k ++ "\"", .undef, []⟩
      else
        let resolved := if isUndef inputVal then (coreOf s).dflt else inputVal
        if isNull resolved then
          if (coreOf s).nullable then .entry k .jnull
          else .fail ⟨"NOT_NULLABLE", errPath opts currentPath,
            "Property \"" ++ k ++ "\" is not nullable", .jnull, []⟩
        else
          match parseS s resolved (some currentPath) with
          | .ok pv =>
            if pm && objKeysEmpty pv && !(truthy (.obj input)) && (coreOf s).optional then .skip
            else .entry k pv
          | .error (.single e) => .fail e
          | .error (.aggregate _ _) =>
            .fail ⟨"INVALID_PROPERTY", errPath opts currentPath,
              "Invalid property \"" ++ k ++ "\"", inputVal, []⟩
termination_by pm input merged opts path k fs => (sizeOf fs, 1, 0)

end

/-- Rebuild a shape with an updated core; models an in-place mutation of
the base-abstract state of the receiver instance. -/
def updateCore : Shape → (Core → Core) → Shape
  | .string c a b d e, f => .string (f c) a b d e
  | .number c a, f => .number (f c) a
  | .boolean c a b, f => .boolean (f c) a b
  | .enumS c vs, f => .enumS (f c) vs
  | .union c ms, f => .union (f c) ms
  | .array c e, f => .array (f c) e
  | .obj c mn mx pm fs, f => .obj (f c) mn mx pm fs
  | .lit v, _ => .lit v

/-- `shape.optional()` at shape level (base-abstract.ts 68-71): sets
`_optional` on the receiver itself. -/
def optionalFn (s : Shape) : Shape := updateCore s optionalCore

/-- `shape.default(value)` at shape level (base-abstract.ts 54-61). -/
def defaultFn (s : Shape) (v : JVal) : Shape := updateCore s (fun c => defaultCore c v)

/-- The record returned by `safeParse` (base-abstract.ts 36-52):
`value` is `none` when the source stores `undefined as T`. -/
structure SafeResult where
  success : Bool
  value : Option JVal
  error : Option Thrown

/-- `safeParse(value)`: wraps `parse` in try/catch, returning
`{value, success: true, error: undefined}` on success and
`{success: false, value: undefined, error: e}` when parse throws. -/
def safeParse (s : Shape) (v : JVal) : SafeResult :=
  match parseS s v none with
  | .ok r => ⟨true, some r, none⟩
  | .error e => ⟨false, none, some e⟩

/-- Generic JS property assignment on an association list. -/
def setKeyG {α : Type} (o : List (String × α)) (k : String) (v : α) : List (String × α) :=
  if o.any (fun p => p.1 == k) then
    o.map (fun p => if p.1 == k then (k, v) else p)
  else
    o ++ [(k, v)]

/-- `{...a, ...b}` over shape field maps. -/
def spreadShapes (a b : List (String × Shape)) : List (String × Shape) :=
  b.foldl (fun acc p => setKeyG acc p.1 p.2) a

/-- The per-entry effect of `processShapes` (functions.ts 20-34): a shape
entry gets `_key := fullPath` and, when `_prop` is still unconfigured,
`_prop := fullPath`; a literal entry is untouched (its plain-object
recursion finds no shapes to set in the modelled field maps). -/
def processOne (fullPath : String) : Shape → Shape
  | .lit v => .lit v
  | s => updateCore s (fun c =>
      { c with key := fullPath,
               prop := if c.prop = "_unconfigured_property" then fullPath else c.prop })

/-- `processShapes(shapes, prefix)` over a field map; mutates the field
shape instances in place (shared with every map holding them). -/
def processShapesFields (pre : String) : List (String × Shape) → List (String × Shape)
  | [] => []
  | (k, s) :: rest =>
    let fullPath := if pre ≠ "" then pre ++ "." ++ k else k
    (k, processOne fullPath s) :: processShapesFields pre rest

/-- `new ObjectShape(shape)` (object-shape.ts 14-18): fresh base state,
`processShapes` applied to the field map at construction. -/
def mkObjectShape (fields : List (String × Shape)) : Shape :=
  .obj freshCore none none false (processShapesFields "" fields)

/-- `copyMetadata(newShape)` (object-shape.ts 20-41): copies every own
property of the receiver except `_type` and `_shape` onto the freshly
constructed shape — the whole core plus `_minProperties`,
`_maxProperties` and `_partial`. -/
def copyMetadataObj : Shape → Shape → Shape
  | .obj c mn mx pm _, .obj _ _ _ _ nf => .obj c mn mx pm nf
  | _, t => t

/-- `partial()` (object-shape.ts 262-275). Returns the pair
(receiver after the call, returned derived shape): the receiver's own
`_partial` flag is set, each field shape is mutated in place by
`optional()` (the instances are shared with the derived shape's map) and
the derived shape's constructor re-runs `processShapes` over those same
instances; the derived shape then receives the receiver's metadata. -/
def objPartialFn : Shape → Shape × Shape
  | .obj c mn mx _ fields =>
    let mutated := fields.map (fun p =>
      (p.1, match p.2 with
            | .lit v => Shape.lit v
            | fs => optionalFn fs))
    let processed := processShapesFields "" mutated
    let receiver := Shape.obj c mn mx true processed
    let derived := copyMetadataObj receiver (Shape.obj freshCore none none false processed)
    (receiver, derived)
  | s => (s, s)

/-- The per-field split of `deepPartial()` (object-shape.ts 278-292)
before the derived constructor runs: nested ObjectShape fields go through
`partial()` (receiver keeps the in-place-mutated original, the extended
map gets the returned derived shape); other shape fields are mutated
optional in place (the same instance lands in both maps); literals are
untouched. -/
def deepPartGo : List (String × Shape) → List (String × Shape) × List (String × Shape)
  | [] => ([], [])
  | (k, f) :: rest =>
    let pr := deepPartGo rest
    match f with
    | .obj c mn mx pm fs =>
      let pp := objPartialFn (.obj c mn mx pm fs)
      ((k, pp.1) :: pr.1, (k, pp.2) :: pr.2)
    | .lit v => ((k, .lit v) :: pr.1, (k, .lit v) :: pr.2)
    | s => ((k, optionalFn s) :: pr.1, (k, optionalFn s) :: pr.2)

/-- After `new ObjectShape(extended)` runs `processShapes` on the
extended map, the receiver sees the key/prop mutation only on the leaf
entries it shares with that map (nested object entries in the receiver
are the in-place-mutated originals, not the processed derived copies). -/
def deepPartReceiverFix : List (String × Shape) → List (String × Shape)
  | [] => []
  | (k, f) :: rest =>
    match f with
    | .obj c mn mx pm fs => (k, Shape.obj c mn mx pm fs) :: deepPartReceiverFix rest
    | .lit v => (k, .lit v) :: deepPartReceiverFix rest
    | s => (k, processOne k s) :: deepPartReceiverFix rest

/-- `deepPartial()` (object-shape.ts 278-292): does NOT set the
receiver's `_partial`; returns (receiver after the call, derived). -/
def objDeepPartFn : Shape → Shape × Shape
  | .obj c mn mx pm fields =>
    let pr := deepPartGo fields
    let ef := processShapesFields "" pr.2
    let rf := deepPartReceiverFix pr.1
    let receiver := Shape.obj c mn mx pm rf
    let derived := copyMetadataObj receiver (Shape.obj freshCore none none false ef)
    (receiver, derived)
  | s => (s, s)

/-- The field map of an ObjectShape. -/
def fieldsOf : Shape → List (String × Shape)
  | .obj _ _ _ _ f => f
  | _ => []

/-- `merge(shape)` (object-shape.ts 294-299): a new ObjectShape over
`{...this._shape, ...shape._shape}` (right side wins), with the
receiver's metadata copied on. -/
def objMergeFn (s t : Shape) : Shape :=
  copyMetadataObj s (mkObjectShape (spreadShapes (fieldsOf s) (fieldsOf t)))

/-- `pick(keys)` (object-shape.ts 301-306): `keys.map(k => [k,
this._shape[k]])` — a key missing from the map contributes a literal
`undefined` entry. -/
def objPickFn (s : Shape) (ks : List String) : Shape :=
  copyMetadataObj s (mkObjectShape (ks.map (fun k =>
    (k, match (fieldsOf s).find? (fun p => p.1 == k) with
        | some p => p.2
        | none => Shape.lit .undef))))

/-- `omit(keys)` (object-shape.ts 308-315): copy of the field map with
the given keys deleted. -/
def objOmitFn (s : Shape) (ks : List String) : Shape :=
  copyMetadataObj s (mkObjectShape ((fieldsOf s).filter (fun p => !(ks.contains p.1))))

/-- `minProperties(min)` (object-shape.ts 344-348): assigns
`_minProperties`, calls `partial()` (for its receiver side effects,
discarding the derived shape) and returns the receiver. -/
def minPropertiesFn (s : Shape) (m : Nat) : Shape :=
  (objPartialFn (match s with
    | .obj c _ mx pm f => .obj c (some m) mx pm f
    | s => s)).1

/-- The `_partial` flag of an ObjectShape. -/
def pmOf : Shape → Bool
  | .obj _ _ _ pm _ => pm
  | _ => false

/-- The `_optional` flag of a named field shape, `none` for a missing or
literal field. -/
def fieldOptional (s : Shape) (k : String) : Option Bool :=
  match (fieldsOf s).find? (fun p => p.1 == k) with
  | some (_, .lit _) => none
  | some (_, f) => some (coreOf f).optional
  | none => none

/-- Every shape field of the map carries `_optional`. -/
def fieldsAllOptional (l : List (String × Shape)) : Bool :=
  l.all (fun p => match p.2 with
    | .lit _ => true
    | f => (coreOf f).optional)

/-!
Heap-level model of `ObjectShape.parse` for the cycle-guard claim. Object
identity matters there (the cycle cache is a `WeakMap` keyed by the
reference of the freshly spread `merged` view), so values are addresses
into an explicit store and every object-literal construction allocates a
fresh address. The model covers the sublanguage the claim is about:
schemas whose fields are ObjectShape references (possibly self-referential
via an index into the schema list) and inputs whose property values are
object references (possibly cyclic). Fuel counts nested parse/getDefaults
activations; a result of `none` at every fuel is unbounded recursion.
-/

/-- An ObjectShape in the heap model: each field names another object
schema by its index in the schema list (a self index makes the schema
self-referential, as built by storing the shape inside its own field
map). -/
structure HSchema where
  fields : List (String × Nat)

/-- The heap: address ↦ plain object whose property values are object
references. Allocation appends, so an address is fresh iff it equals the
store length. -/
abbrev HStore := List (List (String × Nat))

/-- `k in o` on a heap object. -/
def hasKeyN (o : List (String × Nat)) (k : String) : Bool :=
  o.any (fun p => p.1 == k)

/-- `{...a, ...b}` on heap objects. -/
def spreadK (a b : List (String × Nat)) : List (String × Nat) :=
  b.foldl (fun acc p => setKeyG acc p.1 p.2) a

mutual

/-- `ObjectShape.getDefaults()` in the heap model (object-shape.ts
43-56): recursively builds the nested default objects (every field here
is an ObjectShape, so every entry recurses) and allocates the resulting
`Object.fromEntries` object fresh. -/
def getDefaultsHp : List HSchema → Nat → HStore → Nat → Option (HStore × Nat)
  | _, _, _, 0 => none
  | ss, i, store, fuel + 1 =>
    match ss.get? i with
    | none => none
    | some sch =>
      match getDefaultsHpF ss sch.fields store fuel with
      | none => none
      | some (store1, entries) => some (store1 ++ [entries], store1.length)

/-- The `Object.entries(this._shape).map` loop of `getDefaults`. -/
def getDefaultsHpF : List HSchema → List (String × Nat) → HStore → Nat →
    Option (HStore × List (String × Nat))
  | _, [], store, _ => some (store, [])
  | ss, (k, j) :: rest, store, fuel =>
    match getDefaultsHp ss j store fuel with
    | none => none
    | some (store1, a) =>
      match getDefaultsHpF ss rest store1 fuel with
      | none => none
      | some (store2, es) => some (store2, es ++ [(k, a)])

end

mutual

/-- `ObjectShape.parse` in the heap model (object-shape.ts 105-219 on a
plain-object input): computes `getDefaults`, allocates the spread
`merged = {...shape_defaults, ...input}` FRESH, consults the per-call
cycle cache (`cached.has(merged)`) keyed by that fresh address, registers
it, walks the declared fields recursively and allocates the
`Object.fromEntries(entries)` result. -/
def parseHp : List HSchema → Nat → HStore → Nat → List Nat → Nat → Option (HStore × Nat)
  | _, _, _, _, _, 0 => none
  | ss, i, store, a, cache, fuel + 1 =>
    match ss.get? i with
    | none => none
    | some sch =>
      match store.get? a with
      | none => none
      | some inputFields =>
        match getDefaultsHp ss i store fuel with
        | none => none
        | some (store1, dAddr) =>
          let dFields := (store1.get? dAddr).getD []
          let mergedFields := spreadK dFields inputFields
          let m := store1.length
          let store2 := store1 ++ [mergedFields]
          if m ∈ cache then some (store2, m)
          else
            let cache1 := m :: cache
            match parseHpFields ss sch.fields inputFields mergedFields store2 cache1 fuel with
            | none => none
            | some (store3, entries) => some (store3 ++ [entries], store3.length)
termination_by ss i store a cache fuel => (fuel, 0)

/-- The field loop of the heap-model parse: an ObjectShape field absent
from the raw input is skipped (object-shape.ts line 126); a present field
recurses on its merged value with the shared cycle cache. -/
def parseHpFields : List HSchema → List (String × Nat) → List (String × Nat) →
    List (String × Nat) → HStore → List Nat → Nat →
    Option (HStore × List (String × Nat))
  | _, [], _, _, store, _, _ => some (store, [])
  | ss, (k, j) :: rest, input, merged, store, cache, fuel =>
    if !(hasKeyN input k) then
      parseHpFields ss rest input merged store cache fuel
    else
      match (merged.find? (fun p => p.1 == k)).map Prod.snd with
      | none => parseHpFields ss rest input merged store cache fuel
      | some va =>
        match parseHp ss j store va cache fuel with
        | none => none
        | some (store1, ra) =>
          match parseHpFields ss rest input merged store1 cache fuel with
          | none => none
          | some (store2, es) => some (store2, es ++ [(k, ra)])
termination_by ss fields input merged store cache fuel => (fuel, 1 + fields.length)

end

/-- The self-referential schema: an ObjectShape whose field `self` is the
shape itself (`const o = {}; const S = c.object(o); o.self = S`). -/
def cycSS : List HSchema := [⟨[("self", 0)]⟩]

/-- The cyclic input `const a = {}; a.self = a` as a heap. -/
def cycStore : HStore := [[("self", 0)]]

/-!
## Example shapes used by the theorems
-/

/-- A fresh `c.string()` shape. -/
def strShape0 : Shape := .string freshCore false false false false

/-- A fresh `c.number()` shape. -/
def numShape0 : Shape := .number freshCore false

/-- `_operations` contains at least one transform. -/
def hasTransformOp (ops : List Op) : Bool := ops.any Op.isTransform

/-- A number shape with one queued transform. -/
def numWithTransform : Shape :=
  Shape.number (transformFn freshCore (fun x => some x) "Invalid transform" "TRANSFORM_ERROR") false

/-- A number core flagged important with a queued to-null transform. -/
def impNullCore : Core :=
  { freshCore with important := true,
                   ops := [Op.transform (fun _ => some .jnull) "m" "TRANSFORM_ERROR"] }

/-- A core with a single always-false refinement queued. -/
def refFalseCore : Core :=
  { freshCore with ops := [Op.refine (fun _ => false) "m" "cd"] }

/-- The field shape `c.number()` as processed under key `a`. -/
def numFieldA : Shape := Shape.number { freshCore with prop := "a", key := "a" } false

/-- The field shape `c.number()` as processed under key `b`. -/
def numFieldB : Shape := Shape.number { freshCore with prop := "b", key := "b" } false

/-- `numFieldA` after the in-place `optional()` mutation of `partial()`. -/
def numFieldAopt : Shape :=
  Shape.number { freshCore with prop := "a", key := "a", optional := true } false

/-- `numFieldBopt` counterpart for key `b`. -/
def numFieldBopt : Shape :=
  Shape.number { freshCore with prop := "b", key := "b", optional := true } false

/-- The field shape `c.number()` as processed under key `age` inside the
nested object. -/
def ageField : Shape := Shape.number { freshCore with prop := "age", key := "age" } false

/-- The nested `c.object({ age: c.number() })` as processed under key
`user` of the outer object. -/
def userField : Shape :=
  Shape.obj { freshCore with prop := "user", key := "user" } none none false [("age", ageField)]

/-- `c.array(c.string())`: the element shape keeps the unconfigured
`_prop` (no `processShapes` runs over array elements). -/
def arrOfString : Shape := Shape.array freshCore (Shape.string freshCore false false false false)

/-- `c.number().transform(n => n + 1)`: a number shape with one queued
incrementing transform. -/
def incShape : Shape :=
  Shape.number (transformFn freshCore
    (fun v => match v with | .num n => some (.num (n + 1)) | _ => none)
    "Invalid transform" "TRANSFORM_ERROR") false

/-- A plain `c.boolean()` candidate. -/
def boolShape0 : Shape := Shape.boolean freshCore false false

/-- The shape stored at key `k` of an ObjectShape's field map. -/
def fieldShape (s : Shape) (k : String) : Shape :=
  match (fieldsOf s).find? (fun p => p.1 == k) with
  | some p => p.2
  | none => (.lit .undef)

/-!
## Theorems
-/

/-! Constructor-level reduction lemmas for the value predicates, so that
concrete values reduce while symbolic occurrences stay foldable. -/

@[simp] theorem isUndef_undef : isUndef .undef = true := rfl
@[simp] theorem isUndef_jnull : isUndef .jnull = false := rfl
@[simp] theorem isUndef_jbool (b : Bool) : isUndef (.jbool b) = false := rfl
@[simp] theorem isUndef_num (n : Int) : isUndef (.num n) = false := rfl
@[simp] theorem isUndef_str (s : String) : isUndef (.str s) = false := rfl
@[simp] theorem isUndef_obj (fs : List (String × JVal)) : isUndef (.obj fs) = false := rfl
@[simp] theorem isUndef_arr (es : List JVal) : isUndef (.arr es) = false := rfl
@[simp] theorem isNull_undef : isNull .undef = false := rfl
@[simp] theorem isNull_jnull : isNull .jnull = true := rfl
@[simp] theorem isNull_jbool (b : Bool) : isNull (.jbool b) = false := rfl
@[simp] theorem isNull_num (n : Int) : isNull (.num n) = false := rfl
@[simp] theorem isNull_str (s : String) : isNull (.str s) = false := rfl
@[simp] theorem isNull_obj (fs : List (String × JVal)) : isNull (.obj fs) = false := rfl
@[simp] theorem isNull_arr (es : List JVal) : isNull (.arr es) = false := rfl
@[simp] theorem truthy_undef : truthy .undef = false := rfl
@[simp] theorem truthy_jnull : truthy .jnull = false := rfl

/-- Bind on a successful Except result. -/
@[simp] theorem ok_bind {α β : Type} (a : α) (f : α → Except Thrown β) :
    (Except.ok a : Except Thrown α) >>= f = f a := rfl

/-- A plain object is never nullish, so the important check passes. -/
@[simp] theorem checkImportant_obj (c : Core) (fs : List (String × JVal)) :
    checkImportant c (.obj fs) = .ok (.obj fs) := by
  simp [checkImportant]

/-- C5: `transform` prepends the queued transform to the (cloned)
operation list so it runs before every already-queued refinement;
`refine` appends, so refinements keep pure append order among
themselves; and the pipeline runs the list in order with each
transform's output feeding the operations after it — a refinement queued
before a later-added transform is applied to the transform's output. -/
theorem c5_operation_order (c : Core) (f : JVal → Option JVal) (p1 p2 : JVal → Bool)
    (m1 m2 mt cd1 cd2 ct : String) :
    (transformFn (refineFn c p1 m1 cd1) f mt ct).ops
      = Op.transform f mt ct :: (c.ops ++ [Op.refine p1 m1 cd1])
    ∧ (refineFn (refineFn c p1 m1 cd1) p2 m2 cd2).ops
      = c.ops ++ [Op.refine p1 m1 cd1, Op.refine p2 m2 cd2]
    ∧ (∀ (path : String) (v w : JVal), c.ops = [] → f v = some w →
        applyOperations (transformFn (refineFn c p1 m1 cd1) f mt ct) v path
          = if p1 w then .ok w
            else .error (.single ⟨cd1, propPath c.prop path, m1, w, []⟩)) := by
  refine ⟨by simp [transformFn, refineFn], by simp [transformFn, refineFn], ?_⟩
  intro path v w h0 hf
  by_cases hp : p1 w <;>
    simp [transformFn, refineFn, applyOperations, h0, applyOpsList, hf, hp]

/-- C5 witness: a queued equality refinement accepts the output of a
later-added increment transform. -/
theorem c5_operation_order_witness :
    applyOperations (transformFn (refineFn freshCore (fun x => jvalEq x (.num 1)) "m1" "VALIDATION_ERROR")
        (fun x => match x with | .num n => some (.num (n + 1)) | _ => none) "mt" "TRANSFORM_ERROR")
      (.num 0) "" = .ok (.num 1) := by
  have h := (c5_operation_order freshCore
      (fun x => match x with | .num n => some (.num (n + 1)) | _ => none)
      (fun x => jvalEq x (.num 1)) (fun _ => true)
      "m1" "m2" "mt" "VALIDATION_ERROR" "cd2" "TRANSFORM_ERROR").2.2 "" (.num 0) (.num 1) rfl rfl
  simpa [jvalEq] using h

/-- C9: `safeParse` mirrors `parse` without throwing: success is
equivalent to `parse` succeeding; on success the parsed value is returned
with no error; when `parse` throws, the thrown structured error is
returned with `value` undefined. -/
theorem c9_safeParse (s : Shape) (v : JVal) :
    ((safeParse s v).success = true ↔ ∃ r, parseS s v none = .ok r)
    ∧ (∀ r, parseS s v none = .ok r → safeParse s v = ⟨true, some r, none⟩)
    ∧ (∀ e, parseS s v none = .error e → safeParse s v = ⟨false, none, some e⟩) := by
  cases hp : parseS s v none <;> simp [safeParse, hp]

/-- C9 witness: a valid string input parses and `safeParse` reports
success with the value. -/
theorem c9_safeParse_witness :
    safeParse strShape0 (.str "hi") = ⟨true, some (.str "hi"), none⟩ :=
  (c9_safeParse strShape0 (.str "hi")).2.1 (.str "hi")
    (by simp [parseS, strShape0, stringParse, freshCore, applyOperations, applyOpsList, checkImportant, truthy])

theorem defaultCore_of_transform (c : Core) (v : JVal) (h : hasTransformOp c.ops = true) :
    defaultCore c v = { c with pretransforms := c.pretransforms ++ [v] } := by
  simp only [hasTransformOp, List.any_eq_true] at h
  obtain ⟨x, hx, hxt⟩ := h
  unfold defaultCore
  rw [if_neg]
  rintro (h1 | h2)
  · rw [List.isEmpty_iff] at h1
    simp [h1] at hx
  · have := List.all_eq_true.mp h2 x hx
    simp [hxt] at this

theorem applyOperations_pre (c : Core) (X : List JVal) :
    applyOperations { c with pretransforms := X } = applyOperations c := rfl

theorem checkImportant_pre (c : Core) (X : List JVal) :
    checkImportant { c with pretransforms := X } = checkImportant c := rfl

theorem parseS_pre (s : Shape) (g : Core → List JVal) (u : JVal) (o : Option String) :
    parseS (updateCore s (fun c => { c with pretransforms := g c })) u o = parseS s u o := by
  cases s <;> first
    | (simp only [updateCore, parseS.eq_def]; rfl)
    | (cases u <;> simp only [updateCore, parseS.eq_def] <;> rfl)

theorem defaultFn_eq (s : Shape) (v : JVal) (h : hasTransformOp (coreOf s).ops = true) :
    defaultFn s v = updateCore s (fun c => { c with pretransforms := c.pretransforms ++ [v] }) := by
  cases s
  case lit w => rfl
  all_goals
    simp only [defaultFn, updateCore]
    rw [defaultCore_of_transform _ v (by simpa [coreOf] using h)]

theorem coreOf_defaultFn (s : Shape) (v : JVal) (h : hasTransformOp (coreOf s).ops = true) :
    coreOf (defaultFn s v)
      = { coreOf s with pretransforms := (coreOf s).pretransforms ++ [v] } := by
  rw [defaultFn_eq s v h]
  cases s
  case lit w => simp [coreOf, freshCore, hasTransformOp] at h
  all_goals simp [updateCore, coreOf]

theorem parseWithDefault_pre (s : Shape) (g : Core → List JVal) (u : JVal) :
    parseWithDefault (updateCore s (fun c => { c with pretransforms := g c })) u
      = parseWithDefault s u := by
  cases s
  case lit w => rfl
  case string c a b d e =>
    have hp := parseS_pre (Shape.string c a b d e) g u none
    simp only [updateCore] at hp
    by_cases h1 : (isUndef u && !(isUndef c.dflt)) = true <;>
      simp [parseWithDefault.eq_def, updateCore, coreOf, h1, hp] <;> try rfl
  case number c a =>
    have hp := parseS_pre (Shape.number c a) g u none
    simp only [updateCore] at hp
    by_cases h1 : (isUndef u && !(isUndef c.dflt)) = true <;>
      simp [parseWithDefault.eq_def, updateCore, coreOf, h1, hp] <;> try rfl
  case boolean c a b =>
    have hp := parseS_pre (Shape.boolean c a b) g u none
    simp only [updateCore] at hp
    by_cases h1 : (isUndef u && !(isUndef c.dflt)) = true <;>
      simp [parseWithDefault.eq_def, updateCore, coreOf, h1, hp] <;> try rfl
  case enumS c vs =>
    have hp := parseS_pre (Shape.enumS c vs) g u none
    simp only [updateCore] at hp
    by_cases h1 : (isUndef u && !(isUndef c.dflt)) = true <;>
      simp [parseWithDefault.eq_def, updateCore, coreOf, h1, hp] <;> try rfl
  case union c ms =>
    have hp := parseS_pre (Shape.union c ms) g u none
    simp only [updateCore] at hp
    by_cases h1 : (isUndef u && !(isUndef c.dflt)) = true <;>
      simp [parseWithDefault.eq_def, updateCore, coreOf, h1, hp] <;> try rfl
  case array c e2 =>
    have hp := parseS_pre (Shape.array c e2) g u none
    simp only [updateCore] at hp
    by_cases h1 : (isUndef u && !(isUndef c.dflt)) = true <;>
      simp [parseWithDefault.eq_def, updateCore, coreOf, h1, hp] <;> try rfl
  case obj c mn mx pm fs =>
    have hp := parseS_pre (Shape.obj c mn mx pm fs) g u none
    simp only [updateCore] at hp
    by_cases h1 : (isUndef u && !(isUndef c.dflt)) = true <;>
      simp [parseWithDefault.eq_def, updateCore, coreOf, h1, hp] <;> try rfl

theorem getDefaultsF_pre (s : Shape) (g : Core → List JVal) (k : String) :
    getDefaultsF [(k, updateCore s (fun c => { c with pretransforms := g c }))]
      = getDefaultsF [(k, s)] := by
  cases s <;> simp [updateCore, getDefaultsF, coreOf]

/-- C10: on a shape whose operation list already holds a transform,
`default(v)` leaves `_default` unchanged and appends `v` to
`_pretransforms`, which neither `parse`, `parseWithDefault` nor the
`getDefaults` walk ever reads — so such a default is never substituted
for an undefined input. -/
theorem c10_default_after_transform (s : Shape) (v : JVal)
    (h : hasTransformOp (coreOf s).ops = true) :
    (coreOf (defaultFn s v)).dflt = (coreOf s).dflt
    ∧ (coreOf (defaultFn s v)).pretransforms = (coreOf s).pretransforms ++ [v]
    ∧ (∀ u o, parseS (defaultFn s v) u o = parseS s u o)
    ∧ (∀ u, parseWithDefault (defaultFn s v) u = parseWithDefault s u)
    ∧ (∀ k, getDefaultsF [(k, defaultFn s v)] = getDefaultsF [(k, s)]) := by
  refine ⟨?_, ?_, ?_, ?_, ?_⟩
  · simp [coreOf_defaultFn s v h]
  · simp [coreOf_defaultFn s v h]
  · intro u o
    rw [defaultFn_eq s v h]
    exact parseS_pre s _ u o
  · intro u
    rw [defaultFn_eq s v h]
    exact parseWithDefault_pre s _ u
  · intro k
    rw [defaultFn_eq s v h]
    exact getDefaultsF_pre s _ k

/-- C10 witness: a default configured after a transform changes neither
`parseWithDefault` on undefined nor `_default`. -/
theorem c10_default_after_transform_witness :
    parseWithDefault (defaultFn numWithTransform (.num 5)) .undef
      = parseWithDefault numWithTransform .undef
    ∧ (coreOf (defaultFn numWithTransform (.num 5))).dflt = JVal.undef :=
  ⟨(c10_default_after_transform numWithTransform (.num 5) rfl).2.2.2.1 .undef,
   (c10_default_after_transform numWithTransform (.num 5) rfl).1⟩

/-- C3: resolution of a declared field whose effective (merged) value is
absent or null, on a one-field ObjectShape over an arbitrary field core:
an absent value takes the field default (then parsed by the field shape);
an absent value on an optional field (or in partial mode) omits the key
entirely; an absent value on a required field raises `MISSING_PROPERTY`;
an explicit null passes only on a nullable field, else `NOT_NULLABLE`;
and an object of all-optional defaultless fields parses `{}` to an object
with those keys absent. -/
theorem c3_field_resolution (c : Core) :
    (isUndef c.dflt = false → isNull c.dflt = false →
      parseS (Shape.obj freshCore none none false [("k", Shape.number c false)]) (.obj []) none
        = (match parseS (Shape.number c false) c.dflt (some "k") with
           | .ok pv => .ok (.obj [("k", pv)])
           | .error (.single e) => .error (.single e)
           | .error (.aggregate _ _) =>
             .error (.single ⟨"INVALID_PROPERTY", "k", "Invalid property \"k\"", c.dflt, []⟩)))
    ∧ (isUndef c.dflt = true → c.optional = true →
      parseS (Shape.obj freshCore none none false [("k", Shape.number c false)]) (.obj []) none
        = .ok (.obj []))
    ∧ (isUndef c.dflt = true → c.optional = false →
      parseS (Shape.obj freshCore none none false [("k", Shape.number c false)]) (.obj []) none
        = .error (.single ⟨"MISSING_PROPERTY", "k", "Missing required property \"k\"", .undef, []⟩))
    ∧ (c.nullable = true →
      parseS (Shape.obj freshCore none none false [("k", Shape.number c false)]) (.obj [("k", .jnull)]) none
        = .ok (.obj [("k", .jnull)]))
    ∧ (c.nullable = false →
      parseS (Shape.obj freshCore none none false [("k", Shape.number c false)]) (.obj [("k", .jnull)]) none
        = .error (.single ⟨"NOT_NULLABLE", "k", "Property \"k\" is not nullable", .jnull, []⟩))
    ∧ (isUndef c.dflt = true →
      parseS (Shape.obj freshCore none none true [("k", Shape.number c false)]) (.obj []) none
        = .ok (.obj []))
    ∧ (parseS (Shape.obj freshCore none none false
        [("a", optionalFn strShape0), ("b", optionalFn numShape0)]) (.obj []) none
      = .ok (.obj [])) := by
  refine ⟨?_, ?_, ?_, ?_, ?_, ?_, ?_⟩
  · intro h1 h2
    cases hr : parseS (Shape.number c false) c.dflt (some "k") with
    | ok r =>
      simp only [parseS] at hr
      simp [parseS, objFields, objFieldStep, getDefaultsObj, getDefaultsF, fromEntries, setKey,
        spreadJ, spreadMerge, jlookup, hasKey, freshCore, coreOf, isObjShape, h1, h2, hr,
        applyOperations, applyOpsList, checkImportant, errPath]
    | error e =>
      cases e with
      | single e0 =>
        simp only [parseS] at hr
        simp [parseS, objFields, objFieldStep, getDefaultsObj, getDefaultsF, fromEntries, setKey,
          spreadJ, spreadMerge, jlookup, hasKey, freshCore, coreOf, isObjShape, h1, h2, hr,
          applyOperations, applyOpsList, checkImportant, errPath]
      | aggregate es m =>
        simp only [parseS] at hr
        simp [parseS, objFields, objFieldStep, getDefaultsObj, getDefaultsF, fromEntries, setKey,
          spreadJ, spreadMerge, jlookup, hasKey, freshCore, coreOf, isObjShape, h1, h2, hr,
          applyOperations, applyOpsList, checkImportant, errPath]
  · intro h1 h2
    simp [parseS, objFields, objFieldStep, getDefaultsObj, getDefaultsF, fromEntries, setKey,
      spreadJ, spreadMerge, jlookup, hasKey, freshCore, coreOf, isObjShape, h1, h2,
      applyOperations, applyOpsList, checkImportant, errPath]
  · intro h1 h2
    simp [parseS, objFields, objFieldStep, getDefaultsObj, getDefaultsF, fromEntries, setKey,
      spreadJ, spreadMerge, jlookup, hasKey, freshCore, coreOf, isObjShape, h1, h2,
      applyOperations, applyOpsList, checkImportant, errPath]
  · intro h1
    simp [parseS, objFields, objFieldStep, getDefaultsObj, getDefaultsF, fromEntries, setKey,
      spreadJ, spreadMerge, jlookup, hasKey, freshCore, coreOf, isObjShape, h1,
      applyOperations, applyOpsList, checkImportant, errPath]
  · intro h1
    simp [parseS, objFields, objFieldStep, getDefaultsObj, getDefaultsF, fromEntries, setKey,
      spreadJ, spreadMerge, jlookup, hasKey, freshCore, coreOf, isObjShape, h1,
      applyOperations, applyOpsList, checkImportant, errPath]
  · intro h1
    simp [parseS, objFields, objFieldStep, getDefaultsObj, getDefaultsF, fromEntries, setKey,
      spreadJ, spreadMerge, jlookup, hasKey, freshCore, coreOf, isObjShape, h1,
      applyOperations, applyOpsList, checkImportant, errPath]
  · simp [parseS, objFields, objFieldStep, getDefaultsObj, getDefaultsF, fromEntries, setKey,
      spreadJ, spreadMerge, jlookup, hasKey, freshCore, coreOf, isObjShape, optionalFn,
      optionalCore, updateCore, strShape0, numShape0,
      applyOperations, applyOpsList, checkImportant, errPath]

/-- C3 witness: an all-optional defaultless one-field object parses `{}`
to `{}` with the key absent, and a required field raises
`MISSING_PROPERTY`. -/
theorem c3_field_resolution_witness :
    parseS (Shape.obj freshCore none none false
        [("k", Shape.number { freshCore with optional := true } false)]) (.obj []) none
      = .ok (.obj [])
    ∧ parseS (Shape.obj freshCore none none false [("k", Shape.number freshCore false)]) (.obj []) none
      = .error (.single ⟨"MISSING_PROPERTY", "k", "Missing required property \"k\"", .undef, []⟩) :=
  ⟨(c3_field_resolution { freshCore with optional := true }).2.1 rfl rfl,
   (c3_field_resolution freshCore).2.2.1 rfl rfl⟩

/-- C6 counterexample: an optional EnumShape with no default does NOT
pass an undefined input through — it raises `INVALID_ENUM_VALUE`,
contradicting step (b) of the claimed order. -/
theorem c6_counterexample :
    parseS (Shape.enumS { freshCore with optional := true } [.str "a"]) .undef none
      = .error (.single ⟨"INVALID_ENUM_VALUE", "",
          "Value must be one of: a", .undef, []⟩) := by
  simp only [parseS]
  rfl

/-- Boolean undefined test read back as a propositional equation. -/
theorem isUndef_eq_true (v : JVal) : isUndef v = true ↔ v = .undef := by
  cases v <;> simp

/-- C6 amended: the leaf order actually implemented is — String, Number
and Boolean substitute the default only when the input is undefined AND
the default is truthy (a falsy default is ignored); optional undefined
and nullable null short-circuits; coercion; base type check; then the
operation pipeline runs and the important check runs LAST on the
pipeline's output (not before it); with boolean coercion enabled the
coerced value returns directly, bypassing pipeline and important check;
EnumShape never substitutes a default and passes undefined (null)
through only when optional (nullable) AND a default is configured. -/
theorem c6_leaf_parse_order :
    (∀ (c : Core) (co : Bool), truthy c.dflt = true →
      numberParse c co .undef = numberParse c co c.dflt)
    ∧ numberParse { freshCore with dflt := .num 0 } false .undef
        = .error (.single ⟨"NOT_NUMBER", "", "Expected a number", .undef, []⟩)
    ∧ (∀ (c : Core) (co t l u : Bool), isUndef c.dflt = true → c.optional = true →
      stringParse c co t l u .undef = .ok .undef)
    ∧ (∀ (c : Core) (co t l u : Bool), c.nullable = true →
      stringParse c co t l u .jnull = .ok .jnull)
    ∧ numberParse impNullCore false (.num 1)
        = .error (.single ⟨"IMPORTANT_PROPERTY",
            "_unconfigured_property - (prop: \x27_unconfigured_property\x27)",
            "The property \x27_unconfigured_property\x27 is marked as required but was not provided. Please define this value before proceeding.",
            .jnull, []⟩)
    ∧ (∀ d : JVal, isUndef d = false →
      enumParse { freshCore with optional := true, dflt := d } [.str "a"] .undef = .ok .undef)
    ∧ booleanParse refFalseCore true false (.str "true") = .ok (.jbool true) := by
  refine ⟨?_, by rfl, ?_, ?_, by rfl, ?_, by rfl⟩
  · intro c co h
    simp [numberParse, h]
  · intro c co t l u h1 h2
    have hd : c.dflt = .undef := (isUndef_eq_true _).mp h1
    simp [stringParse, hd, h2]
  · intro c co t l u h
    simp [stringParse, h]
  · intro d h
    simp [enumParse, h]

/-- C6 witness: the truthy-default substitution and the optional
short-circuit applied to concrete shapes. -/
theorem c6_leaf_parse_order_witness :
    numberParse { freshCore with dflt := .num 5 } false .undef
      = numberParse { freshCore with dflt := .num 5 } false (.num 5)
    ∧ stringParse { freshCore with optional := true } false false false false .undef = .ok .undef :=
  ⟨c6_leaf_parse_order.1 { freshCore with dflt := .num 5 } false rfl,
   c6_leaf_parse_order.2.2.1 { freshCore with optional := true } false false false false rfl rfl⟩

/-- C2 counterexample: with `minProperties(2)` configured and a single
invalid field, the code raises `TOO_FEW_PROPERTIES` (bounds are checked
BEFORE the collected field errors are thrown), not the field's
`NOT_NUMBER` error, contradicting the claim that bounds are enforced
only when no per-field error occurred. -/
theorem c2_counterexample :
    parseS (minPropertiesFn (mkObjectShape [("a", Shape.number freshCore false)]) 2)
      (.obj [("a", .str "x")]) none
      = .error (.single ⟨"TOO_FEW_PROPERTIES", "",
          "Object must have at least 2 properties", .obj [("a", .str "x")], []⟩) := by
  have hs : minPropertiesFn (mkObjectShape [("a", Shape.number freshCore false)]) 2
      = Shape.obj freshCore (some 2) none true [("a", numFieldAopt)] := rfl
  have hm : spreadMerge (spreadJ (getDefaultsObj [("a", numFieldAopt)]) freshCore.dflt)
      [("a", JVal.str "x")] = [("a", JVal.str "x")] := by
    simp only [numFieldA, numFieldB, numFieldAopt, numFieldBopt, getDefaultsObj, getDefaultsF]; rfl
  have s1 : objFieldStep true [("a", JVal.str "x")] [("a", JVal.str "x")] none (Option.getD none "") "a" numFieldAopt
      = .fail ⟨"NOT_NUMBER", "a", "Expected a number", .str "x", []⟩ := by
    simp only [numFieldA, numFieldB, numFieldAopt, numFieldBopt, objFieldStep, parseS]; rfl
  rw [hs]
  simp only [parseS, objFields, hm, s1]
  rfl

/-- C2 amended: ObjectShape parse collects per-field errors; it first
enforces the minProperties/maxProperties bounds against the RESULTING
object's key count (even when field errors were collected — a bound
violation masks them); only when the bounds pass is a single collected
error rethrown directly, and two or more are wrapped in one
AggregateError listing all of them with their field paths. -/
theorem c2_error_collection :
    parseS (mkObjectShape [("a", Shape.number freshCore false), ("b", Shape.number freshCore false)])
      (.obj [("a", .str "x"), ("b", .str "y")]) none
      = .error (.aggregate
          [⟨"NOT_NUMBER", "a", "Expected a number", .str "x", []⟩,
           ⟨"NOT_NUMBER", "b", "Expected a number", .str "y", []⟩]
          "Multiple validation errors")
    ∧ parseS (mkObjectShape [("a", Shape.number freshCore false)]) (.obj [("a", .str "x")]) none
      = .error (.single ⟨"NOT_NUMBER", "a", "Expected a number", .str "x", []⟩)
    ∧ parseS (minPropertiesFn (mkObjectShape
          [("a", Shape.number freshCore false), ("b", Shape.number freshCore false)]) 2)
        (.obj [("a", .num 1)]) none
      = .error (.single ⟨"TOO_FEW_PROPERTIES", "",
          "Object must have at least 2 properties", .obj [("a", .num 1)], []⟩)
    ∧ parseS (minPropertiesFn (mkObjectShape [("a", Shape.number freshCore false)]) 0)
        (.obj [("a", .str "x")]) none
      = .error (.single ⟨"NOT_NUMBER", "a", "Expected a number", .str "x", []⟩) := by
  refine ⟨?_, ?_, ?_, ?_⟩
  · have hs : mkObjectShape [("a", Shape.number freshCore false), ("b", Shape.number freshCore false)]
        = Shape.obj freshCore none none false [("a", numFieldA), ("b", numFieldB)] := rfl
    have hm : spreadMerge (spreadJ (getDefaultsObj [("a", numFieldA), ("b", numFieldB)]) freshCore.dflt)
        [("a", JVal.str "x"), ("b", JVal.str "y")]
        = [("a", JVal.str "x"), ("b", JVal.str "y")] := by
      simp only [numFieldA, numFieldB, numFieldAopt, numFieldBopt, getDefaultsObj, getDefaultsF]; rfl
    have s1 : objFieldStep false [("a", JVal.str "x"), ("b", JVal.str "y")]
        [("a", JVal.str "x"), ("b", JVal.str "y")] none (Option.getD none "") "a" numFieldA
        = .fail ⟨"NOT_NUMBER", "a", "Expected a number", .str "x", []⟩ := by
      simp only [numFieldA, numFieldB, numFieldAopt, numFieldBopt, objFieldStep, parseS]; rfl
    have s2 : objFieldStep false [("a", JVal.str "x"), ("b", JVal.str "y")]
        [("a", JVal.str "x"), ("b", JVal.str "y")] none (Option.getD none "") "b" numFieldB
        = .fail ⟨"NOT_NUMBER", "b", "Expected a number", .str "y", []⟩ := by
      simp only [numFieldA, numFieldB, numFieldAopt, numFieldBopt, objFieldStep, parseS]; rfl
    rw [hs]
    simp only [parseS, objFields, hm, s1, s2]
    rfl
  · have hs : mkObjectShape [("a", Shape.number freshCore false)]
        = Shape.obj freshCore none none false [("a", numFieldA)] := rfl
    have hm : spreadMerge (spreadJ (getDefaultsObj [("a", numFieldA)]) freshCore.dflt)
        [("a", JVal.str "x")] = [("a", JVal.str "x")] := by
      simp only [numFieldA, numFieldB, numFieldAopt, numFieldBopt, getDefaultsObj, getDefaultsF]; rfl
    have s1 : objFieldStep false [("a", JVal.str "x")] [("a", JVal.str "x")] none (Option.getD none "") "a" numFieldA
        = .fail ⟨"NOT_NUMBER", "a", "Expected a number", .str "x", []⟩ := by
      simp only [numFieldA, numFieldB, numFieldAopt, numFieldBopt, objFieldStep, parseS]; rfl
    rw [hs]
    simp only [parseS, objFields, hm, s1]
    rfl
  · have hs : minPropertiesFn (mkObjectShape
          [("a", Shape.number freshCore false), ("b", Shape.number freshCore false)]) 2
        = Shape.obj freshCore (some 2) none true [("a", numFieldAopt), ("b", numFieldBopt)] := rfl
    have hm : spreadMerge (spreadJ
        (getDefaultsObj [("a", numFieldAopt), ("b", numFieldBopt)]) freshCore.dflt)
        [("a", JVal.num 1)] = [("a", JVal.num 1), ("b", JVal.undef)] := by
      simp only [numFieldA, numFieldB, numFieldAopt, numFieldBopt, getDefaultsObj, getDefaultsF]; rfl
    have s1 : objFieldStep true [("a", JVal.num 1)] [("a", JVal.num 1), ("b", JVal.undef)]
        none (Option.getD none "") "a" numFieldAopt = .entry "a" (.num 1) := by
      simp only [numFieldA, numFieldB, numFieldAopt, numFieldBopt, objFieldStep, parseS]; rfl
    have s2 : objFieldStep true [("a", JVal.num 1)] [("a", JVal.num 1), ("b", JVal.undef)]
        none (Option.getD none "") "b" numFieldBopt = .skip := by
      simp only [numFieldA, numFieldB, numFieldAopt, numFieldBopt, objFieldStep, parseS]; rfl
    rw [hs]
    simp only [parseS, objFields, hm, s1, s2]
    rfl
  · have hs : minPropertiesFn (mkObjectShape [("a", Shape.number freshCore false)]) 0
        = Shape.obj freshCore (some 0) none true [("a", numFieldAopt)] := rfl
    have hm : spreadMerge (spreadJ (getDefaultsObj [("a", numFieldAopt)]) freshCore.dflt)
        [("a", JVal.str "x")] = [("a", JVal.str "x")] := by
      simp only [numFieldA, numFieldB, numFieldAopt, numFieldBopt, getDefaultsObj, getDefaultsF]; rfl
    have s1 : objFieldStep true [("a", JVal.str "x")] [("a", JVal.str "x")] none (Option.getD none "") "a" numFieldAopt
        = .fail ⟨"NOT_NUMBER", "a", "Expected a number", .str "x", []⟩ := by
      simp only [numFieldA, numFieldB, numFieldAopt, numFieldBopt, objFieldStep, parseS]; rfl
    rw [hs]
    simp only [parseS, objFields, hm, s1]
    rfl

/-- C8 counterexample: the nested number type error carries path `age`
(the leaf re-derives the path from its own `_prop` and ignores the
accumulated `currentPath`), not the claimed `user.age`; and the array
element type error carries path `` (the element shape has the
unconfigured `_prop`, which `createError` maps to the empty path), not
the claimed `[1]`. -/
theorem c8_counterexample :
    (∃ e, parseS (mkObjectShape [("user", mkObjectShape [("age", Shape.number freshCore false)])])
        (.obj [("user", .obj [("age", .str "x")])]) none = .error (.single e)
        ∧ e.path ≠ "user.age")
    ∧ (∃ e, parseS arrOfString (.arr [.str "a", .num 5, .str "c"]) none = .error (.single e)
        ∧ e.path ≠ "[1]") := by
  constructor
  · refine ⟨⟨"NOT_NUMBER", "age", "Expected a number", .str "x", []⟩, ?_, by decide⟩
    have hs : mkObjectShape [("user", mkObjectShape [("age", Shape.number freshCore false)])]
        = Shape.obj freshCore none none false [("user", userField)] := rfl
    have hm : spreadMerge (spreadJ (getDefaultsObj [("user", userField)]) freshCore.dflt)
        [("user", JVal.obj [("age", JVal.str "x")])]
        = [("user", JVal.obj [("age", JVal.str "x")])] := by
      simp only [userField, ageField, getDefaultsObj, getDefaultsF]; rfl
    have sInner : parseS userField (.obj [("age", JVal.str "x")]) (some "user")
        = .error (.single ⟨"NOT_NUMBER", "age", "Expected a number", .str "x", []⟩) := by
      have hm2 : spreadMerge (spreadJ (getDefaultsObj [("age", ageField)])
          (Core.dflt { freshCore with prop := "user", key := "user" }))
          [("age", JVal.str "x")] = [("age", JVal.str "x")] := by
        simp only [ageField, getDefaultsObj, getDefaultsF]; rfl
      have s2 : objFieldStep false [("age", JVal.str "x")] [("age", JVal.str "x")]
          (some "user") (Option.getD (some "user") "") "age" ageField
          = .fail ⟨"NOT_NUMBER", "age", "Expected a number", .str "x", []⟩ := by
        simp only [ageField, objFieldStep, parseS]; rfl
      simp only [userField, parseS, objFields, hm2, s2]
      rfl
    have s_user : objFieldStep false [("user", JVal.obj [("age", JVal.str "x")])]
        [("user", JVal.obj [("age", JVal.str "x")])] none (Option.getD none "") "user" userField
        = .fail ⟨"NOT_NUMBER", "age", "Expected a number", .str "x", []⟩ := by
      have hK : hasKey [("user", JVal.obj [("age", JVal.str "x")])] "user" = true := rfl
      have hJ : jlookup [("user", JVal.obj [("age", JVal.str "x")])] "user"
          = JVal.obj [("age", JVal.str "x")] := rfl
      have sInnerU : parseS (Shape.obj
            { dflt := JVal.undef, pretransforms := [], prop := "user", key := "user",
              important := false, saveDefault := false, optional := false, nullable := false,
              ops := [] }
            none none false [("age", ageField)]) (.obj [("age", JVal.str "x")]) (some "user")
          = .error (.single ⟨"NOT_NUMBER", "age", "Expected a number", .str "x", []⟩) := sInner
      simp [userField, objFieldStep, hK, hJ, sInnerU, freshCore]
    rw [hs]
    simp only [parseS, objFields, hm, s_user]
    rfl
  · refine ⟨⟨"NOT_STRING", "", "Expected a string", .num 5, []⟩, ?_, by decide⟩
    simp only [arrOfString, parseS, arrGo, parseWithPath, parseWithDefault]
    rfl

/-- C8 amended: error paths do NOT accumulate top-down into leaf type
errors. Parsing `\x7b user: \x7b age: "x" \x7d \x7d` against
`object(\x7b user: object(\x7b age: number \x7d) \x7d)` raises NOT_NUMBER
with path `age` (the leaf path is rebuilt from the leaf shape's own
`_prop`, set to its local key at construction); a missing nested required
property raises MISSING_PROPERTY with path `user` (the `...opts` spread in
the field-loop error constructors lets the parent's `opts.path` override
the computed `currentPath`); and an array element type error carries path
`` (the element shape's `_prop` is never configured). -/
theorem c8_error_paths :
    parseS (mkObjectShape [("user", mkObjectShape [("age", Shape.number freshCore false)])])
      (.obj [("user", .obj [("age", .str "x")])]) none
      = .error (.single ⟨"NOT_NUMBER", "age", "Expected a number", .str "x", []⟩)
    ∧ parseS (mkObjectShape [("user", mkObjectShape [("age", Shape.number freshCore false)])])
      (.obj [("user", .obj [])]) none
      = .error (.single ⟨"MISSING_PROPERTY", "user",
          "Missing required property \"age\"", .undef, []⟩)
    ∧ parseS arrOfString (.arr [.str "a", .num 5, .str "c"]) none
      = .error (.single ⟨"NOT_STRING", "", "Expected a string", .num 5, []⟩) := by
  refine ⟨?_, ?_, ?_⟩
  · have hs : mkObjectShape [("user", mkObjectShape [("age", Shape.number freshCore false)])]
        = Shape.obj freshCore none none false [("user", userField)] := rfl
    have hm : spreadMerge (spreadJ (getDefaultsObj [("user", userField)]) freshCore.dflt)
        [("user", JVal.obj [("age", JVal.str "x")])]
        = [("user", JVal.obj [("age", JVal.str "x")])] := by
      simp only [userField, ageField, getDefaultsObj, getDefaultsF]; rfl
    have sInner : parseS userField (.obj [("age", JVal.str "x")]) (some "user")
        = .error (.single ⟨"NOT_NUMBER", "age", "Expected a number", .str "x", []⟩) := by
      have hm2 : spreadMerge (spreadJ (getDefaultsObj [("age", ageField)])
          (Core.dflt { freshCore with prop := "user", key := "user" }))
          [("age", JVal.str "x")] = [("age", JVal.str "x")] := by
        simp only [ageField, getDefaultsObj, getDefaultsF]; rfl
      have s2 : objFieldStep false [("age", JVal.str "x")] [("age", JVal.str "x")]
          (some "user") (Option.getD (some "user") "") "age" ageField
          = .fail ⟨"NOT_NUMBER", "age", "Expected a number", .str "x", []⟩ := by
        simp only [ageField, objFieldStep, parseS]; rfl
      simp only [userField, parseS, objFields, hm2, s2]
      rfl
    have s_user : objFieldStep false [("user", JVal.obj [("age", JVal.str "x")])]
        [("user", JVal.obj [("age", JVal.str "x")])] none (Option.getD none "") "user" userField
        = .fail ⟨"NOT_NUMBER", "age", "Expected a number", .str "x", []⟩ := by
      have hK : hasKey [("user", JVal.obj [("age", JVal.str "x")])] "user" = true := rfl
      have hJ : jlookup [("user", JVal.obj [("age", JVal.str "x")])] "user"
          = JVal.obj [("age", JVal.str "x")] := rfl
      have sInnerU : parseS (Shape.obj
            { dflt := JVal.undef, pretransforms := [], prop := "user", key := "user",
              important := false, saveDefault := false, optional := false, nullable := false,
              ops := [] }
            none none false [("age", ageField)]) (.obj [("age", JVal.str "x")]) (some "user")
          = .error (.single ⟨"NOT_NUMBER", "age", "Expected a number", .str "x", []⟩) := sInner
      simp [userField, objFieldStep, hK, hJ, sInnerU, freshCore]
    rw [hs]
    simp only [parseS, objFields, hm, s_user]
    rfl
  · have hs : mkObjectShape [("user", mkObjectShape [("age", Shape.number freshCore false)])]
        = Shape.obj freshCore none none false [("user", userField)] := rfl
    have hm : spreadMerge (spreadJ (getDefaultsObj [("user", userField)]) freshCore.dflt)
        [("user", JVal.obj [])] = [("user", JVal.obj [])] := by
      simp only [userField, ageField, getDefaultsObj, getDefaultsF]; rfl
    have sInner : parseS userField (.obj []) (some "user")
        = .error (.single ⟨"MISSING_PROPERTY", "user",
            "Missing required property \"age\"", .undef, []⟩) := by
      have hm2 : spreadMerge (spreadJ (getDefaultsObj [("age", ageField)])
          (Core.dflt { freshCore with prop := "user", key := "user" })) []
          = [("age", JVal.undef)] := by
        simp only [ageField, getDefaultsObj, getDefaultsF]; rfl
      have s2 : objFieldStep false [] [("age", JVal.undef)]
          (some "user") (Option.getD (some "user") "") "age" ageField
          = .fail ⟨"MISSING_PROPERTY", "user",
              "Missing required property \"age\"", .undef, []⟩ := by
        simp only [ageField, objFieldStep, parseS]; rfl
      simp only [userField, parseS, objFields, hm2, s2]
      rfl
    have s_user : objFieldStep false [("user", JVal.obj [])]
        [("user", JVal.obj [])] none (Option.getD none "") "user" userField
        = .fail ⟨"MISSING_PROPERTY", "user",
            "Missing required property \"age\"", .undef, []⟩ := by
      have hK : hasKey [("user", JVal.obj [])] "user" = true := rfl
      have hJ : jlookup [("user", JVal.obj [])] "user" = JVal.obj [] := rfl
      have sInnerU : parseS (Shape.obj
            { dflt := JVal.undef, pretransforms := [], prop := "user", key := "user",
              important := false, saveDefault := false, optional := false, nullable := false,
              ops := [] }
            none none false [("age", ageField)]) (.obj []) (some "user")
          = .error (.single ⟨"MISSING_PROPERTY", "user",
              "Missing required property \"age\"", .undef, []⟩) := sInner
      simp [userField, objFieldStep, hK, hJ, sInnerU, freshCore]
    rw [hs]
    simp only [parseS, objFields, hm, s_user]
    rfl
  · simp only [arrOfString, parseS, arrGo, parseWithPath, parseWithDefault]
    rfl

/-- C4 counterexample: the union does NOT return the first successful
candidate's result unmodified — `UnionShape.parse` delegates to the
candidate's `parseWithPath`, which re-applies the candidate's operation
pipeline on top of `parse`'s own application, so a union over a single
number-with-increment-transform candidate maps 1 to 3 while the candidate
itself parses 1 to 2. -/
theorem c4_counterexample :
    parseS (Shape.union freshCore [incShape]) (.num 1) none = .ok (.num 3)
    ∧ parseS incShape (.num 1) none = .ok (.num 2) := by
  constructor
  · simp only [incShape, parseS, unionGo, parseWithPath, parseWithDefault]
    rfl
  · simp only [incShape, parseS]
    rfl

/-- C4 amended: the union tries candidates in declaration order and the
first candidate whose `parseWithPath` succeeds decides the result (so
with `[A, B]` both matching, `A` wins); the value returned is that
candidate's `parseWithPath` output, which re-runs the candidate's
operation pipeline after `parse` (a transforming candidate's result is
modified: 1 maps to 3 through a single increment transform); when every
candidate fails, one `NO_MATCHING_UNION_MEMBER` error carries each
candidate's failure as (code, message, path) metadata. -/
theorem c4_union_first_success :
    (∀ (uprop : String) (m : Shape) (rest : List Shape) (v : JVal) (acc : List JErr) (r : JVal),
      parseWithPath m v uprop = .ok r → unionGo uprop (m :: rest) v acc = .ok r)
    ∧ (∀ (c : Core) (m : Shape) (rest : List Shape) (v : JVal) (r : JVal),
      parseWithPath m v c.prop = .ok r → parseS (Shape.union c (m :: rest)) v none = .ok r)
    ∧ parseS (Shape.union freshCore [incShape]) (.num 1) none = .ok (.num 3)
    ∧ parseS (Shape.union freshCore [numShape0, boolShape0]) (.str "x") none
      = .error (.single ⟨"NO_MATCHING_UNION_MEMBER", "",
          "Value did not match any union member", .str "x",
          [("NOT_NUMBER", "Expected a number", ""), ("NOT_BOOLEAN", "Expected a boolean", "")]⟩) := by
  refine ⟨?_, ?_, ?_, ?_⟩
  · intro uprop m rest v acc r h
    simp only [unionGo, h]
  · intro c m rest v r h
    simp only [parseS, unionGo, h]
  · simp only [incShape, parseS, unionGo, parseWithPath, parseWithDefault]
    rfl
  · simp only [numShape0, boolShape0, parseS, unionGo, parseWithPath, parseWithDefault]
    rfl

/-- C4 witness: the first-success conjuncts applied to a union of a plain
number candidate (which accepts 5) ahead of a string candidate. -/
theorem c4_union_first_success_witness :
    unionGo "u" [numShape0, strShape0] (.num 5) [] = .ok (.num 5)
    ∧ parseS (Shape.union freshCore [numShape0, strShape0]) (.num 5) none = .ok (.num 5) :=
  ⟨c4_union_first_success.1 "u" numShape0 [strShape0] (.num 5) [] (.num 5)
    (by simp only [numShape0, parseWithPath, parseWithDefault, parseS]; rfl),
   c4_union_first_success.2.1 freshCore numShape0 [strShape0] (.num 5) (.num 5)
    (by simp only [numShape0, parseWithPath, parseWithDefault, parseS]; rfl)⟩

/-- `processShapes` is idempotent on a single entry: re-processing an
already-processed shape rewrites `_key` to the same value and leaves the
configured `_prop` alone. -/
theorem procOne_idem (k : String) (s : Shape) :
    processOne k (processOne k s) = processOne k s := by
  cases s <;> simp only [processOne, updateCore] <;> (try rfl) <;> split_ifs <;> simp_all

/-- `processShapes` is idempotent on a field map: the pass the
`new ObjectShape` constructor runs inside `merge`, `pick` and `omit` is
the identity on field instances the receiver already processed. -/
theorem procFields_idem (pre : String) (fields : List (String × Shape)) :
    processShapesFields pre (processShapesFields pre fields)
      = processShapesFields pre fields := by
  induction fields with
  | nil => rfl
  | cons p rest ih =>
    obtain ⟨k, f⟩ := p
    simp [processShapesFields, procOne_idem, ih]

/-- Every field of a partial-mutated map carries `_optional` (literal
entries are not shapes and are skipped). -/
theorem allOpt_wrap (fields : List (String × Shape)) :
    fieldsAllOptional (processShapesFields "" (fields.map (fun p =>
      (p.1, match p.2 with
            | .lit v => Shape.lit v
            | fs => optionalFn fs)))) = true := by
  have hcons : ∀ (k : String) (f : Shape) (l : List (String × Shape)),
      fieldsAllOptional ((k, f) :: l)
        = ((match f with | .lit _ => true | f => (coreOf f).optional) && fieldsAllOptional l) :=
    fun _ _ _ => rfl
  induction fields with
  | nil => rfl
  | cons p rest ih =>
    obtain ⟨k, f⟩ := p
    cases f <;>
      simp only [List.map_cons, processShapesFields, processOne, updateCore, optionalFn,
        optionalCore, hcons, coreOf, Bool.true_and, Bool.and_true] <;>
      exact ih

/-- C7 counterexample: `partial()` mutates the receiver — after the call
the receiver's own `_partial` flag is set and its field shape `a` has
become optional in place (it was required before), contradicting the
claim that the receiver is never mutated. -/
theorem c7_counterexample :
    pmOf (objPartialFn (mkObjectShape [("a", Shape.number freshCore false)])).1 = true
    ∧ fieldOptional (objPartialFn (mkObjectShape [("a", Shape.number freshCore false)])).1 "a"
        = some true
    ∧ pmOf (mkObjectShape [("a", Shape.number freshCore false)]) = false
    ∧ fieldOptional (mkObjectShape [("a", Shape.number freshCore false)]) "a" = some false := by
  refine ⟨rfl, rfl, rfl, rfl⟩

/-- C7 amended: `partial()` sets the receiver's own `_partial` flag and
mutates every field shape optional in place (the instances are shared
with the derived map), so the receiver ends up observably identical to
the returned shape; `deepPartial()` leaves the receiver's own `_partial`
clear but mutates nested object fields via their own `partial()`; and the
`processShapes` pass that `merge`, `pick` and `omit` trigger through the
`new ObjectShape` constructor is the identity on the receiver's
already-processed field instances, so those three do not observably
mutate the receiver. -/
theorem c7_object_algebra :
    (∀ (c : Core) (mn mx : Option Nat) (pm : Bool) (fields : List (String × Shape)),
      pmOf (objPartialFn (Shape.obj c mn mx pm fields)).1 = true)
    ∧ (∀ (c : Core) (mn mx : Option Nat) (pm : Bool) (fields : List (String × Shape)),
      (objPartialFn (Shape.obj c mn mx pm fields)).2
        = (objPartialFn (Shape.obj c mn mx pm fields)).1)
    ∧ (∀ (c : Core) (mn mx : Option Nat) (pm : Bool) (fields : List (String × Shape)),
      fieldsAllOptional (fieldsOf (objPartialFn (Shape.obj c mn mx pm fields)).1) = true)
    ∧ (∀ fields : List (String × Shape),
      processShapesFields "" (fieldsOf (mkObjectShape fields)) = fieldsOf (mkObjectShape fields))
    ∧ pmOf (objDeepPartFn (mkObjectShape
        [("u", mkObjectShape [("a", Shape.number freshCore false)])])).1 = false
    ∧ pmOf (fieldShape (objDeepPartFn (mkObjectShape
        [("u", mkObjectShape [("a", Shape.number freshCore false)])])).1 "u") = true
    ∧ fieldOptional (fieldShape (objDeepPartFn (mkObjectShape
        [("u", mkObjectShape [("a", Shape.number freshCore false)])])).1 "u") "a" = some true := by
  refine ⟨?_, ?_, ?_, ?_, rfl, rfl, rfl⟩
  · intro c mn mx pm fields
    simp only [objPartialFn, pmOf]
  · intro c mn mx pm fields
    simp only [objPartialFn, copyMetadataObj]
  · intro c mn mx pm fields
    simp only [objPartialFn, fieldsOf]
    exact allOpt_wrap fields
  · intro fields
    simp only [mkObjectShape, fieldsOf]
    exact procFields_idem "" fields

/-- C1: parsing a self-referential schema against a cyclic input never
terminates, at ANY recursion budget. `parse` invokes `getDefaults()`
before the cycle cache is even consulted, and `getDefaults` recurses
through nested ObjectShape fields with no guard of its own, so the
self-referential schema diverges there (first conjunct, for every store);
hence `parse` on the cyclic input exhausts every fuel (second conjunct)
instead of returning a result at the first cycle point. (Independently,
the cache lookup `cached.has(merged)` is keyed by the freshly-allocated
spread object `merged`, which can never equal an earlier key, so the
claimed in-flight-result return is unreachable code.) -/
theorem c1_cycle_guard_dead :
    (∀ (fuel : Nat) (store : HStore), getDefaultsHp cycSS 0 store fuel = none)
    ∧ ∀ fuel : Nat, parseHp cycSS 0 cycStore 0 [] fuel = none := by
  have hg : ∀ (fuel : Nat) (store : HStore), getDefaultsHp cycSS 0 store fuel = none := by
    intro fuel
    induction fuel with
    | zero => intro store; simp [getDefaultsHp]
    | succ n ih =>
      intro store
      have ih2 : ∀ st : HStore, getDefaultsHp [⟨[("self", 0)]⟩] 0 st n = none := ih
      simp [getDefaultsHp, getDefaultsHpF, cycSS, ih2]
  refine ⟨hg, ?_⟩
  intro fuel
  cases fuel with
  | zero => simp [parseHp]
  | succ n =>
    have hg2 : ∀ (f : Nat) (st : HStore), getDefaultsHp [⟨[("self", 0)]⟩] 0 st f = none := hg
    simp [parseHp, cycSS, cycStore, hg2]

end ConfigJS
